import Mathlib

/-!
Verification of the stroke-capture / history-management engine of
Project-Retina (`src/app/api/analyze/route.ts`, page component).

The canvas annotation engine is a React component whose relevant state is
held in refs and `useState` hooks:

  * `canvasRef`      — the mounted `<canvas>` element (or `null`)
  * `isDrawingRef`   — whether a stroke is in progress
  * `lastPointRef`   — the last sampled point of the in-flight stroke
  * `historyRef`     — the undo stack of full-canvas `ImageData` snapshots
  * `redoRef`        — the redo stack
  * `canUndo`/`canRedo` — booleans exposed to the UI
  * `penColor`/`penSize` — the current stroke style

Each event handler is embedded as a pure function `AppState → AppState`,
with the DOM environment (the canvas bounding rectangle, the rendered
image size, pointer coordinates) passed as explicit arguments.  Pixel
rasters are row-major `List Nat` (0 = transparent black, the blank
value produced by `clearRect` and by resizing).  JS numbers are embedded
as `ℚ`.  The line rasterizer (`ctx.stroke()` between two points) is a
platform primitive, so it is taken as an explicit function parameter
`draw`; no claim depends on which pixels a segment paints.
-/

namespace Retina

/-- A full-canvas pixel snapshot, the embedding of the DOM `ImageData`
returned by `ctx.getImageData(0, 0, canvas.width, canvas.height)`.
`pixels` is row-major with intended length `width * height`. -/
structure ImageData where
  width : Nat
  height : Nat
  pixels : List Nat
deriving DecidableEq

/-- The mounted `<canvas>` element's intrinsic drawing buffer:
`canvas.width`, `canvas.height` and the current bitmap. -/
structure Canvas where
  width : Nat
  height : Nat
  pixels : List Nat
deriving DecidableEq

/-- A DOM bounding rectangle as returned by `getBoundingClientRect()`. -/
structure Rect where
  left : ℚ
  top : ℚ
  width : ℚ
  height : ℚ
deriving DecidableEq

/-- A point `{x, y}` in canvas drawing-buffer coordinates. -/
structure Point where
  x : ℚ
  y : ℚ
deriving DecidableEq

/-- The pen configuration applied per segment: `ctx.strokeStyle` and
`ctx.lineWidth` as set at the top of `handlePointerMove`. -/
structure StrokeStyle where
  color : String
  width : ℚ
deriving DecidableEq

/-- The blank (transparent black) raster of the given dimensions. -/
def blankPixels (w h : Nat) : List Nat :=
  List.replicate (w * h) 0

/-- Embeds `ctx.getImageData(0, 0, canvas.width, canvas.height)`: a full copy of
the canvas bitmap. -/
def getImageData (c : Canvas) : ImageData :=
  ⟨c.width, c.height, c.pixels⟩

/-- Embeds `ctx.clearRect(0, 0, canvas.width, canvas.height)`: the whole bitmap
becomes transparent black. -/
def clearRectFull (c : Canvas) : Canvas :=
  { c with pixels := blankPixels c.width c.height }

/-- Embeds `ctx.putImageData(img, 0, 0)`: every canvas pixel `(x, y)` lying inside
`img`'s rectangle is replaced by `img`'s pixel; pixels outside it are left
unchanged (the rectangle is clipped to the canvas bounds). -/
def putImageData (img : ImageData) (c : Canvas) : Canvas :=
  { c with
    pixels := (List.range (c.width * c.height)).map (fun i =>
      let x := i % c.width
      let y := i / c.width
      if x < img.width ∧ y < img.height then img.pixels.getD (y * img.width + x) 0
      else c.pixels.getD i 0) }

/-- Assigning `canvas.width` / `canvas.height`: per HTML semantics each
assignment resets the bitmap to transparent black at the new size. -/
def resizeCanvas (w h : Nat) (_c : Canvas) : Canvas :=
  ⟨w, h, blankPixels w h⟩

/-- The component state relevant to the annotation engine.  `ctxOk`
models whether `canvas.getContext("2d")` returns a context (the handlers
test `canvas` and `ctx` for null separately). -/
structure AppState where
  canvas : Option Canvas
  ctxOk : Bool
  isDrawing : Bool
  lastPoint : Option Point
  history : List ImageData
  redoStack : List ImageData
  canUndo : Bool
  canRedo : Bool
  penColor : String
  penSize : ℚ
deriving DecidableEq

/-- Whether `canvasRef.current?.getContext("2d")` yields a context. -/
def hasCtx (s : AppState) : Bool :=
  s.canvas.isSome && s.ctxOk

/-- Embeds `getCanvasPoint` (route.ts lines 175-183): maps pointer client
coordinates to buffer coordinates; returns the origin when no canvas is
mounted.  `rect` is `canvas.getBoundingClientRect()`. -/
def getCanvasPoint (canvas : Option Canvas) (rect : Rect)
    (clientX clientY : ℚ) : Point :=
  match canvas with
  | none => ⟨0, 0⟩
  | some c =>
    ⟨(clientX - rect.left) * ((c.width : ℚ) / rect.width),
     (clientY - rect.top) * ((c.height : ℚ) / rect.height)⟩

/-- Embeds `handlePointerDown` (lines 185-193): requires a mounted canvas;
captures the pointer (no modelled effect), enters the Drawing state and
records the first sample. -/
def handlePointerDown (rect : Rect) (clientX clientY : ℚ)
    (s : AppState) : AppState :=
  match s.canvas with
  | none => s
  | some c =>
    { s with isDrawing := true
             lastPoint := some (getCanvasPoint (some c) rect clientX clientY) }

/-- Embeds `handlePointerMove` (lines 195-217): no-op unless a stroke is in
progress and a canvas with a 2d context is available.  The first sample
of a stroke whose `lastPoint` was cleared only records the point; a
subsequent sample paints a segment through the platform rasterizer
(`ctx.beginPath/moveTo/lineTo/stroke` with the current pen style),
embedded as the explicit `draw` parameter. -/
def handlePointerMove (draw : StrokeStyle → Point → Point → Canvas → Canvas)
    (rect : Rect) (clientX clientY : ℚ) (s : AppState) : AppState :=
  if s.isDrawing = false then s
  else
    match s.canvas, s.ctxOk with
    | some c, true =>
      let nextPoint := getCanvasPoint (some c) rect clientX clientY
      match s.lastPoint with
      | none => { s with lastPoint := some nextPoint }
      | some lastPoint =>
        { s with
          canvas := some (draw ⟨s.penColor, s.penSize⟩ lastPoint nextPoint c)
          lastPoint := some nextPoint }
    | _, _ => s

/-- Embeds `handlePointerUp` (lines 219-234), also wired to `onPointerLeave`:
releases pointer capture (no modelled effect), unconditionally leaves the
Drawing state and clears the last sample; then, whenever a canvas and 2d
context are available, snapshots the whole bitmap, pushes it on the undo
stack, empties the redo stack and refreshes the two flags.  Note the
source has no `isDrawingRef` guard before the push. -/
def handlePointerUp (s : AppState) : AppState :=
  let s1 := { s with isDrawing := false, lastPoint := none }
  match s.canvas, s.ctxOk with
  | some c, true =>
    let snapshot := getImageData c
    let history := s.history ++ [snapshot]
    { s1 with history := history
              redoStack := []
              canUndo := decide (history.length > 0)
              canRedo := false }
  | _, _ => s1

/-- Embeds `clearCanvas` (lines 236-246): with a canvas and context, blanks the
bitmap, empties both stacks and lowers both flags; otherwise does
nothing. -/
def clearCanvas (s : AppState) : AppState :=
  match s.canvas, s.ctxOk with
  | some c, true =>
    { s with canvas := some (clearRectFull c)
             history := []
             redoStack := []
             canUndo := false
             canRedo := false }
  | _, _ => s

/-- Embeds `undoStroke` (lines 248-259): no-op without canvas/context or with an
empty undo stack; otherwise pops the last snapshot onto the redo stack
(`historyRef.current.pop()` / `redoRef.current.push(last)`), clears the
bitmap, repaints the new last snapshot (`historyRef.current.at(-1)`) if
any, and refreshes both flags. -/
def undoStroke (s : AppState) : AppState :=
  match s.canvas, s.ctxOk with
  | some c, true =>
    if s.history.length = 0 then s
    else
      let history := s.history.dropLast
      let redoStack :=
        match s.history.getLast? with
        | some last => s.redoStack ++ [last]
        | none => s.redoStack
      let c1 := clearRectFull c
      let c2 :=
        match history.getLast? with
        | some previous => putImageData previous c1
        | none => c1
      { s with canvas := some c2
               history := history
               redoStack := redoStack
               canUndo := decide (history.length > 0)
               canRedo := decide (redoStack.length > 0) }
  | _, _ => s

/-- Embeds `redoStroke` (lines 261-271): no-op without canvas/context or with an
empty redo stack; otherwise pops the last redo snapshot back onto the
undo stack, paints it (`ctx.putImageData(next, 0, 0)` with no prior
clear), and refreshes both flags.  The source's `if (!next) return` is
unreachable under the length guard and is kept as the `none` branch. -/
def redoStroke (s : AppState) : AppState :=
  match s.canvas, s.ctxOk with
  | some c, true =>
    if s.redoStack.length = 0 then s
    else
      match s.redoStack.getLast? with
      | none => s
      | some next =>
        let redoStack := s.redoStack.dropLast
        let history := s.history ++ [next]
        { s with canvas := some (putImageData next c)
                 history := history
                 redoStack := redoStack
                 canUndo := decide (history.length > 0)
                 canRedo := decide (redoStack.length > 0) }
  | _, _ => s

/-- Embeds `Math.max(1, Math.floor(q))` of a rendered dimension, as the natural
number assigned to `canvas.width` / `canvas.height`. -/
def clampDim (q : ℚ) : Nat :=
  (max 1 (Rat.floor q)).toNat

/-- Embeds `syncCanvasSize` (lines 160-173): requires the canvas and the
reference image to be mounted; reads the image's rendered bounding box,
clamps it to integers ≥ 1, and if either dimension differs from the
canvas's, assigns both (resetting the bitmap to blank).  The trailing
`ctx.lineWidth = penSize` has no modelled effect because
`handlePointerMove` sets the line width afresh on every segment.
`img` is the bounding rectangle of `imgRef.current`, or `none` when the
image is unmounted. -/
def syncCanvasSize (img : Option Rect) (s : AppState) : AppState :=
  match s.canvas, img with
  | some canvas, some rect =>
    let nextWidth := clampDim rect.width
    let nextHeight := clampDim rect.height
    if canvas.width ≠ nextWidth ∨ canvas.height ≠ nextHeight then
      { s with canvas := some (resizeCanvas nextWidth nextHeight canvas) }
    else s
  | _, _ => s

/-- The body of the `useEffect` on `[isPreviewOpen, previewUrl]`
(lines 273-283) when the preview modal is open: sync the canvas size,
then reset both stacks and both flags. -/
def openPreviewEffect (img : Option Rect) (s : AppState) : AppState :=
  let s1 := syncCanvasSize img s
  { s1 with history := []
            redoStack := []
            canUndo := false
            canRedo := false }

/-- The `window` resize listener registered by the same effect
(line 280): `const handleResize = () => syncCanvasSize();` — it only
syncs the canvas size. -/
def handleResize (img : Option Rect) (s : AppState) : AppState :=
  syncCanvasSize img s

/-! ### The host UI's mapping of the classification response
(`analyzeImage`, lines 120-158; only the pure mapping of the parsed
response body, lines 137-152, is embedded — the fetch is external I/O). -/

/-- One entry of `CustomVisionResponse.predictions`; both fields are
optional in the TypeScript type. -/
structure Prediction where
  tagName : Option String
  probability : Option ℚ
deriving DecidableEq

/-- The TypeScript union `"Normal" | "Pneumonia"`. -/
inductive Diagnosis where
  | Normal : Diagnosis
  | Pneumonia : Diagnosis
deriving DecidableEq

/-- The `AnalysisResult` record passed to `setResult`. -/
structure AnalysisResult where
  diagnosis : Diagnosis
  confidence : ℚ
  is_critical : Bool
deriving DecidableEq

/-- The sort key `a.probability ?? 0` used by the comparator. -/
def probKey (p : Prediction) : ℚ :=
  p.probability.getD 0

/-- JS `String.prototype.toLowerCase`, embedded as the per-character
lowercase map over the string's characters (the tag names involved have
no locale-special casing). -/
def toLowerStr (s : String) : String :=
  ⟨s.data.map Char.toLower⟩

/-- Tests whether `needle` is an initial segment of `hay` (character-exact). -/
def matchesAt : List Char → List Char → Bool
  | [], _ => true
  | _ :: _, [] => false
  | a :: as, b :: bs => a == b && matchesAt as bs

/-- JS `String.prototype.includes` on character lists: `needle` occurs
contiguously somewhere in `hay`. -/
def hasSubstr (needle : List Char) : List Char → Bool
  | [] => matchesAt needle []
  | c :: rest => matchesAt needle (c :: rest) || hasSubstr needle rest

/-- The comparator `(a, b) => (b.probability ?? 0) - (a.probability ?? 0)`
as the Boolean order it sorts by: `a` may precede `b` iff the comparator
is ≤ 0 there, i.e. `b`'s key is at most `a`'s. -/
def predLe (a b : Prediction) : Bool :=
  probKey b ≤ probKey a

/-- Embeds `[...(data.predictions ?? [])].sort((a, b) => (b.probability ?? 0) -
(a.probability ?? 0))`: a stable sort into non-increasing key order. -/
def sortedPredictions (ps : List Prediction) : List Prediction :=
  ps.mergeSort predLe

/-- The pure response mapping inside `analyzeImage` (lines 137-152):
take the top-probability prediction, derive the diagnosis from whether
its lower-cased tag name contains "pneumonia", clamp its probability to
[0, 1], and flag critical exactly for pneumonia. -/
def computeResult (predictions : Option (List Prediction)) : AnalysisResult :=
  let ps := predictions.getD []
  let topPrediction := (sortedPredictions ps).head?
  let tagName :=
    toLowerStr (match topPrediction with
      | some p => p.tagName.getD "Normal"
      | none => "Normal")
  let diagnosis :=
    if hasSubstr "pneumonia".toList tagName.toList then Diagnosis.Pneumonia
    else Diagnosis.Normal
  let confidence := max 0 (min 1 ((topPrediction.bind Prediction.probability).getD 0))
  { diagnosis := diagnosis
    confidence := confidence
    is_critical := decide (diagnosis = Diagnosis.Pneumonia) }

/-! ### Helper lemmas -/

/-- Painting a full-canvas snapshot whose dimensions match the canvas
replaces the whole bitmap with the snapshot's pixels. -/
theorem putImageData_self (img : ImageData) (c : Canvas)
    (hw : img.width = c.width) (hh : img.height = c.height)
    (hl : img.pixels.length = c.width * c.height) :
    putImageData img c = { c with pixels := img.pixels } := by
  unfold putImageData
  apply congrArg
  apply List.ext_getElem
  · simp [hl]
  · intro n h1 h2
    simp only [List.getElem_map, List.getElem_range]
    have hn : n < c.width * c.height := by simpa using h1
    have hwpos : 0 < c.width := by
      rcases Nat.eq_zero_or_pos c.width with h0 | h0
      · exact absurd hn (by simp [h0])
      · exact h0
    have hx : n % c.width < img.width := by
      rw [hw]; exact Nat.mod_lt _ hwpos
    have hn' : n < c.height * c.width := by
      rw [Nat.mul_comm]; exact hn
    have hy : n / c.width < img.height := by
      rw [hh]
      exact (Nat.div_lt_iff_lt_mul hwpos).mpr hn'
    rw [if_pos ⟨hx, hy⟩]
    have hidx : n / c.width * img.width + n % c.width = n := by
      rw [hw, Nat.mul_comm]
      exact Nat.div_add_mod n c.width
    rw [hidx, List.getD_eq_getElem]

@[simp] theorem putImageData_width (img : ImageData) (c : Canvas) :
    (putImageData img c).width = c.width := rfl

@[simp] theorem putImageData_height (img : ImageData) (c : Canvas) :
    (putImageData img c).height = c.height := rfl

@[simp] theorem clearRectFull_width (c : Canvas) :
    (clearRectFull c).width = c.width := rfl

@[simp] theorem clearRectFull_height (c : Canvas) :
    (clearRectFull c).height = c.height := rfl

/-- Characterization of `handlePointerUp` when a canvas and a context are
available: it always pushes a fresh full-canvas snapshot. -/
theorem handlePointerUp_eq (s : AppState) (c : Canvas)
    (hc : s.canvas = some c) (hctx : s.ctxOk = true) :
    handlePointerUp s =
      { s with isDrawing := false
               lastPoint := none
               history := s.history ++ [getImageData c]
               redoStack := []
               canUndo := true
               canRedo := false } := by
  unfold handlePointerUp
  rw [hc, hctx]
  simp

/-- Characterization of `handlePointerUp` when the canvas or the context
is missing: only the drawing state and last sample are cleared. -/
theorem handlePointerUp_eq_noCanvas (s : AppState)
    (h : s.canvas = none ∨ s.ctxOk = false) :
    handlePointerUp s = { s with isDrawing := false, lastPoint := none } := by
  unfold handlePointerUp
  rcases h with h | h
  · rw [h]
  · rcases hc : s.canvas with _ | c
    · rfl
    · rw [h]

/-- Characterization of `undoStroke` on a non-empty undo stack with a
canvas and context available. -/
theorem undoStroke_eq (s : AppState) (c : Canvas) (h : List ImageData)
    (snap : ImageData) (hc : s.canvas = some c) (hctx : s.ctxOk = true)
    (hh : s.history = h ++ [snap]) :
    undoStroke s =
      { s with canvas := some
                 (match h.getLast? with
                  | some previous => putImageData previous (clearRectFull c)
                  | none => clearRectFull c)
               history := h
               redoStack := s.redoStack ++ [snap]
               canUndo := decide (h.length > 0)
               canRedo := true } := by
  unfold undoStroke
  rw [hc, hctx, hh]
  simp

/-- Characterization of `redoStroke` on a non-empty redo stack with a
canvas and context available. -/
theorem redoStroke_eq (s : AppState) (c : Canvas) (r : List ImageData)
    (next : ImageData) (hc : s.canvas = some c) (hctx : s.ctxOk = true)
    (hr : s.redoStack = r ++ [next]) :
    redoStroke s =
      { s with canvas := some (putImageData next c)
               history := s.history ++ [next]
               redoStack := r
               canUndo := true
               canRedo := decide (r.length > 0) } := by
  unfold redoStroke
  rw [hc, hctx, hr]
  simp

/-! ### Claim C1 -/

def cvC1 : Canvas := ⟨2, 2, [0, 0, 0, 0]⟩

/-- An Idle session (no stroke in progress, nothing drawn, empty
history) with a mounted canvas and context. -/
def exC1 : AppState :=
  ⟨some cvC1, true, false, none, [], [], false, false, "#2563eb", 3⟩

/-- C1 counterexample: in an Idle session (`isDrawing = false`, no
preceding `begin`), a pointer-up event is not a no-op — it pushes a
Snapshot onto the undo stack, so duplicate end events do push. -/
theorem c1_counterexample :
    exC1.isDrawing = false ∧ exC1.history = [] ∧
    (handlePointerUp exC1).history ≠ [] ∧
    (handlePointerUp (handlePointerUp exC1)).history.length = 2 := by
  decide

/-- C1 (amended): whenever a canvas and 2d context are available,
`end()` pushes exactly one full-canvas Snapshot regardless of whether the
session is Idle or Drawing, and a duplicate end event pushes a second
identical Snapshot rather than nothing. -/
theorem c1_end_always_pushes (s : AppState) (c : Canvas)
    (hc : s.canvas = some c) (hctx : s.ctxOk = true) :
    (handlePointerUp s).history = s.history ++ [getImageData c] ∧
    (handlePointerUp s).isDrawing = false ∧
    (handlePointerUp (handlePointerUp s)).history =
      s.history ++ [getImageData c, getImageData c] := by
  have h1 := handlePointerUp_eq s c hc hctx
  have hc1 : (handlePointerUp s).canvas = some c := by rw [h1]; exact hc
  have hctx1 : (handlePointerUp s).ctxOk = true := by rw [h1]; exact hctx
  have h2 := handlePointerUp_eq (handlePointerUp s) c hc1 hctx1
  refine ⟨by rw [h1], by rw [h1], ?_⟩
  rw [h2, h1]
  simp

/-- C1 amended, witnessed at the concrete Idle session `exC1`. -/
theorem c1_end_always_pushes_witness :
    (handlePointerUp exC1).history = exC1.history ++ [getImageData cvC1] ∧
    (handlePointerUp exC1).isDrawing = false ∧
    (handlePointerUp (handlePointerUp exC1)).history =
      exC1.history ++ [getImageData cvC1, getImageData cvC1] :=
  c1_end_always_pushes exC1 cvC1 rfl rfl

/-! ### Claim C2 -/

def snapC2 : ImageData := ⟨4, 4, blankPixels 4 4⟩

/-- A session holding one committed snapshot, with a 4×4 canvas. -/
def exC2 : AppState :=
  ⟨some ⟨4, 4, blankPixels 4 4⟩, true, false, none, [snapC2], [], true, false,
   "#2563eb", 3⟩

/-- C2 counterexample: a window-resize event whose rendered image
measures 5×4 resizes (and blanks) the 4×4 Canvas Buffer, yet the undo
stack still holds its old snapshot and `canUndo` is still true — the
History Stack is not reset by the resize. -/
theorem c2_counterexample :
    (handleResize (some ⟨0, 0, 5, 4⟩) exC2).canvas =
      some ⟨5, 4, blankPixels 5 4⟩ ∧
    (handleResize (some ⟨0, 0, 5, 4⟩) exC2).history = [snapC2] ∧
    (handleResize (some ⟨0, 0, 5, 4⟩) exC2).canUndo = true := by
  decide

/-- C2 (amended): `syncCanvasSize` (and hence the window-resize listener)
never touches the History Stack or the flags; the reset of both stacks
and both flags happens in the preview-open effect, immediately after
which both stacks are empty and `canUndo`/`canRedo` are false. -/
theorem c2_resize_keeps_history_reset_on_open :
    (∀ (img : Option Rect) (s : AppState),
      (handleResize img s).history = s.history ∧
      (handleResize img s).redoStack = s.redoStack ∧
      (handleResize img s).canUndo = s.canUndo ∧
      (handleResize img s).canRedo = s.canRedo) ∧
    (∀ (img : Option Rect) (s : AppState),
      (openPreviewEffect img s).history = [] ∧
      (openPreviewEffect img s).redoStack = [] ∧
      (openPreviewEffect img s).canUndo = false ∧
      (openPreviewEffect img s).canRedo = false) := by
  constructor
  · intro img s
    unfold handleResize syncCanvasSize
    split
    · refine ⟨?_, ?_, ?_, ?_⟩ <;> (dsimp only; split <;> rfl)
    · exact ⟨rfl, rfl, rfl, rfl⟩
  · intro img s
    exact ⟨rfl, rfl, rfl, rfl⟩

/-! ### Claim C4 -/

/-- A session with a pending redo timeline (`canRedo = true`). -/
def exC4 : AppState :=
  ⟨some ⟨1, 1, [7]⟩, true, false, none, [⟨1, 1, [3]⟩], [⟨1, 1, [9]⟩], true, true,
   "#dc2626", 5⟩

/-- C4: every push of a new Snapshot (a pointer-up commit with a canvas
and context available) appends it to the undo stack and clears the redo
stack entirely, leaving `canRedo` false even if it was true before. -/
theorem c4_push_clears_redo (s : AppState) (c : Canvas)
    (hc : s.canvas = some c) (hctx : s.ctxOk = true) :
    (handlePointerUp s).history = s.history ++ [getImageData c] ∧
    (handlePointerUp s).redoStack = [] ∧
    (handlePointerUp s).canRedo = false := by
  rw [handlePointerUp_eq s c hc hctx]
  exact ⟨rfl, rfl, rfl⟩

/-- C4, witnessed at a state whose `canRedo` is true beforehand. -/
theorem c4_push_clears_redo_witness :
    exC4.canRedo = true ∧
    (handlePointerUp exC4).redoStack = [] ∧
    (handlePointerUp exC4).canRedo = false :=
  ⟨rfl, (c4_push_clears_redo exC4 ⟨1, 1, [7]⟩ rfl rfl).2.1,
   (c4_push_clears_redo exC4 ⟨1, 1, [7]⟩ rfl rfl).2.2⟩

/-! ### Claim C8 -/

/-- A Drawing-state session with no mounted canvas. -/
def exC8 : AppState :=
  ⟨none, true, true, some ⟨1, 1⟩, [⟨1, 1, [4]⟩], [], true, false, "#16a34a", 2⟩

/-- C8: `end()` unconditionally returns the session to Idle and clears
the last recorded sample; when no canvas or no 2d context is available
it captures nothing (stacks and flags untouched), and a subsequent
`sample()` is a complete no-op because the session is Idle. -/
theorem c8_end_without_canvas
    (draw : StrokeStyle → Point → Point → Canvas → Canvas)
    (rect : Rect) (clientX clientY : ℚ) (s : AppState) :
    (handlePointerUp s).isDrawing = false ∧
    (handlePointerUp s).lastPoint = none ∧
    ((s.canvas = none ∨ s.ctxOk = false) →
      handlePointerUp s = { s with isDrawing := false, lastPoint := none }) ∧
    handlePointerMove draw rect clientX clientY (handlePointerUp s) =
      handlePointerUp s := by
  have hidle : (handlePointerUp s).isDrawing = false := by
    unfold handlePointerUp
    split <;> rfl
  have hlast : (handlePointerUp s).lastPoint = none := by
    unfold handlePointerUp
    split <;> rfl
  refine ⟨hidle, hlast, handlePointerUp_eq_noCanvas s, ?_⟩
  unfold handlePointerMove
  rw [hidle]
  simp

/-- C8, witnessed at a Drawing-state session with no canvas: the stacks
and flags survive untouched and a following sample changes nothing. -/
theorem c8_end_without_canvas_witness :
    handlePointerUp exC8 = { exC8 with isDrawing := false, lastPoint := none } ∧
    handlePointerMove (fun _ _ _ c => c) ⟨0, 0, 1, 1⟩ 0 0 (handlePointerUp exC8) =
      handlePointerUp exC8 :=
  ⟨(c8_end_without_canvas (fun _ _ _ c => c) ⟨0, 0, 1, 1⟩ 0 0 exC8).2.2.1
     (Or.inl rfl),
   (c8_end_without_canvas (fun _ _ _ c => c) ⟨0, 0, 1, 1⟩ 0 0 exC8).2.2.2⟩

/-! ### Claim C3 -/

/-- Painting a full snapshot of `c` onto any canvas of the same
dimensions restores `c` exactly. -/
theorem putImageData_restore (c c2 : Canvas)
    (hw : c2.width = c.width) (hh : c2.height = c.height)
    (hl : c.pixels.length = c.width * c.height) :
    putImageData (getImageData c) c2 = c := by
  have hself := putImageData_self (getImageData c) c2
    (by simp [getImageData, hw]) (by simp [getImageData, hh])
    (by simp [getImageData, hw, hh, hl])
  rw [hself]
  cases c
  cases c2
  simp_all [getImageData]

/-- A session whose Canvas Buffer pixel (value 1) does not match the
last snapshot on the undo stack (value 2). -/
def exC3 : AppState :=
  ⟨some ⟨1, 1, [1]⟩, true, false, none, [⟨1, 1, [2]⟩], [], true, false,
   "#2563eb", 3⟩

/-- C3 counterexample: with a non-empty undo stack but an arbitrary
buffer state (here differing from the last snapshot), `undo()` then
`redo()` does not restore the Canvas Buffer: it repaints the last
snapshot instead of the pre-undo pixels. -/
theorem c3_counterexample :
    exC3.history ≠ [] ∧
    (redoStroke (undoStroke exC3)).canvas ≠ exC3.canvas := by
  decide

/-- C3 (amended): provided the Canvas Buffer's pixels equal the last
snapshot on the undo stack and the two flags are consistent with the
stacks — both hold in every state produced by committing, undoing and
redoing strokes — `undo()` immediately followed by `redo()` restores the
entire state exactly: buffer, both stacks and both flags. -/
theorem c3_undo_redo_roundtrip (s : AppState) (c : Canvas)
    (h : List ImageData) (hc : s.canvas = some c) (hctx : s.ctxOk = true)
    (hh : s.history = h ++ [getImageData c])
    (hwf : c.pixels.length = c.width * c.height)
    (hcu : s.canUndo = true)
    (hcr : s.canRedo = decide (s.redoStack.length > 0)) :
    redoStroke (undoStroke s) = s := by
  have hu := undoStroke_eq s c h (getImageData c) hc hctx hh
  generalize hc2 : (match h.getLast? with
      | some previous => putImageData previous (clearRectFull c)
      | none => clearRectFull c) = c2 at hu
  have hw2 : c2.width = c.width := by rw [← hc2]; cases h.getLast? <;> rfl
  have hh2 : c2.height = c.height := by rw [← hc2]; cases h.getLast? <;> rfl
  have hr := redoStroke_eq (undoStroke s) c2 s.redoStack (getImageData c)
    (by rw [hu]) (by rw [hu]; exact hctx) (by rw [hu])
  rw [hu] at hr
  rw [putImageData_restore c c2 hw2 hh2 hwf] at hr
  rw [hu, hr]
  obtain ⟨cv, ct, dr, lp, hi, rd, cu, cr, pc, psz⟩ := s
  simp_all

/-- A consistent session: buffer pixels equal the last snapshot, flags
match the stacks. -/
def exC3g : AppState :=
  ⟨some ⟨1, 1, [5]⟩, true, false, none, [⟨1, 1, [7]⟩, ⟨1, 1, [5]⟩],
   [⟨1, 1, [9]⟩], true, true, "#2563eb", 3⟩

/-- C3 amended, witnessed: the round trip is the identity on a concrete
consistent session. -/
theorem c3_undo_redo_roundtrip_witness :
    redoStroke (undoStroke exC3g) = exC3g :=
  c3_undo_redo_roundtrip exC3g ⟨1, 1, [5]⟩ [⟨1, 1, [7]⟩] rfl rfl rfl
    (by decide) rfl (by decide)

/-! ### Claim C5 -/

/-- C5: `undo()` on an empty undo stack is a complete no-op; on a
non-empty undo stack (with canvas and context available) it pops the
last snapshot onto the redo stack and repaints the new last snapshot —
or a fully cleared buffer when the stack became empty — onto the Canvas
Buffer. -/
theorem c5_undo_spec :
    (∀ s : AppState, s.history = [] → undoStroke s = s) ∧
    (∀ (s : AppState) (c : Canvas) (h : List ImageData) (snap : ImageData),
      s.canvas = some c → s.ctxOk = true → s.history = h ++ [snap] →
      (undoStroke s).history = h ∧
      (undoStroke s).redoStack = s.redoStack ++ [snap] ∧
      (h = [] → (undoStroke s).canvas = some (clearRectFull c)) ∧
      (∀ (h2 : List ImageData) (prev : ImageData), h = h2 ++ [prev] →
        (undoStroke s).canvas = some (putImageData prev (clearRectFull c)) ∧
        (prev.width = c.width → prev.height = c.height →
          prev.pixels.length = c.width * c.height →
          (undoStroke s).canvas = some ⟨c.width, c.height, prev.pixels⟩))) := by
  constructor
  · intro s hs
    unfold undoStroke
    split
    · simp [hs]
    · rfl
  · intro s c h snap hc hctx hh
    rw [undoStroke_eq s c h snap hc hctx hh]
    refine ⟨rfl, rfl, ?_, ?_⟩
    · intro h0
      subst h0
      rfl
    · intro h2 prev hp
      subst hp
      have hgl : (h2 ++ [prev]).getLast? = some prev := List.getLast?_concat h2
      refine ⟨by simp [hgl], ?_⟩
      intro hpw hph hpl
      have hput := putImageData_self prev (clearRectFull c)
        (by simpa using hpw) (by simpa using hph) (by simpa using hpl)
      simp only [hgl]
      rw [hput]
      rfl

/-- A session with two committed snapshots on a 1×1 canvas whose buffer
matches the most recent one. -/
def exC5 : AppState :=
  ⟨some ⟨1, 1, [5]⟩, true, false, none, [⟨1, 1, [7]⟩, ⟨1, 1, [5]⟩], [],
   true, false, "#0f172a", 4⟩

/-- An Idle session with an empty undo stack. -/
def exC5e : AppState :=
  ⟨some ⟨1, 1, [6]⟩, true, false, none, [], [⟨1, 1, [2]⟩], false, true,
   "#0f172a", 4⟩

/-- C5, witnessed: the empty-stack no-op and the pop/render behaviour at
concrete sessions. -/
theorem c5_undo_spec_witness :
    undoStroke exC5e = exC5e ∧
    (undoStroke exC5).history = [⟨1, 1, [7]⟩] ∧
    (undoStroke exC5).redoStack = [⟨1, 1, [5]⟩] ∧
    (undoStroke exC5).canvas = some ⟨1, 1, [7]⟩ :=
  ⟨c5_undo_spec.1 exC5e rfl,
   (c5_undo_spec.2 exC5 ⟨1, 1, [5]⟩ [⟨1, 1, [7]⟩] ⟨1, 1, [5]⟩ rfl rfl rfl).1,
   (c5_undo_spec.2 exC5 ⟨1, 1, [5]⟩ [⟨1, 1, [7]⟩] ⟨1, 1, [5]⟩ rfl rfl rfl).2.1,
   ((c5_undo_spec.2 exC5 ⟨1, 1, [5]⟩ [⟨1, 1, [7]⟩] ⟨1, 1, [5]⟩ rfl rfl rfl).2.2.2
       [] ⟨1, 1, [7]⟩ rfl).2 rfl rfl (by decide)⟩

/-! ### Claim C6 -/

/-- C6: with a canvas and context available, `clear()` empties both
stacks, blanks the Canvas Buffer and lowers both flags, whatever the
prior state; and it is not undoable — an immediate `undo()` (or
`redo()`) after it is a no-op. -/
theorem c6_clear_spec (s : AppState) (c : Canvas)
    (hc : s.canvas = some c) (hctx : s.ctxOk = true) :
    clearCanvas s =
      { s with canvas := some ⟨c.width, c.height, blankPixels c.width c.height⟩
               history := []
               redoStack := []
               canUndo := false
               canRedo := false } ∧
    undoStroke (clearCanvas s) = clearCanvas s ∧
    redoStroke (clearCanvas s) = clearCanvas s := by
  have hclear : clearCanvas s =
      { s with canvas := some ⟨c.width, c.height, blankPixels c.width c.height⟩
               history := []
               redoStack := []
               canUndo := false
               canRedo := false } := by
    unfold clearCanvas
    rw [hc, hctx]
    rfl
  refine ⟨hclear, ?_, ?_⟩
  · rw [hclear]
    unfold undoStroke
    simp [hctx]
  · rw [hclear]
    unfold redoStroke
    simp [hctx]

/-- A busy session: non-blank 2×1 buffer, snapshots on both stacks, both
flags raised. -/
def exC6 : AppState :=
  ⟨some ⟨2, 1, [8, 9]⟩, true, true, some ⟨1, 1⟩, [⟨2, 1, [8, 9]⟩],
   [⟨2, 1, [0, 3]⟩], true, true, "#f97316", 6⟩

/-- C6, witnessed at a busy concrete session. -/
theorem c6_clear_spec_witness :
    clearCanvas exC6 =
      { exC6 with canvas := some ⟨2, 1, blankPixels 2 1⟩
                  history := []
                  redoStack := []
                  canUndo := false
                  canRedo := false } ∧
    undoStroke (clearCanvas exC6) = clearCanvas exC6 ∧
    redoStroke (clearCanvas exC6) = clearCanvas exC6 :=
  c6_clear_spec exC6 ⟨2, 1, [8, 9]⟩ rfl rfl

/-! ### Claim C7 -/

/-- C7: the Coordinate Mapper computes exactly
`buffer.x = (screen.x - box.left) * (buffer.width / box.width)` (same
for y); consequently the exact center of the display box maps to the
exact center of the buffer for any box/buffer size ratio; and with no
canvas mounted it returns the degenerate origin point (the mapper is a
pure function, so it has no side effects). -/
theorem c7_coordinate_mapper :
    (∀ (c : Canvas) (rect : Rect) (clientX clientY : ℚ),
      getCanvasPoint (some c) rect clientX clientY =
        ⟨(clientX - rect.left) * ((c.width : ℚ) / rect.width),
         (clientY - rect.top) * ((c.height : ℚ) / rect.height)⟩) ∧
    (∀ (c : Canvas) (rect : Rect), rect.width ≠ 0 → rect.height ≠ 0 →
      getCanvasPoint (some c) rect (rect.left + rect.width / 2)
          (rect.top + rect.height / 2) =
        ⟨(c.width : ℚ) / 2, (c.height : ℚ) / 2⟩) ∧
    (∀ (rect : Rect) (clientX clientY : ℚ),
      getCanvasPoint none rect clientX clientY = ⟨0, 0⟩) := by
  refine ⟨fun c rect x y => rfl, ?_, fun rect x y => rfl⟩
  intro c rect hw hh
  simp only [getCanvasPoint, Point.mk.injEq]
  constructor
  · field_simp
    ring
  · field_simp
    ring

/-- C7, witnessed: a 100×50 display box at (10, 20) over a 200×100
buffer; the box center maps to the buffer center, and an unmounted
canvas yields the origin. -/
theorem c7_coordinate_mapper_witness :
    getCanvasPoint (some ⟨200, 100, []⟩) ⟨10, 20, 100, 50⟩
        (10 + 100 / 2) (20 + 50 / 2) =
      ⟨((200 : ℕ) : ℚ) / 2, ((100 : ℕ) : ℚ) / 2⟩ ∧
    getCanvasPoint none ⟨10, 20, 100, 50⟩ 3 4 = ⟨0, 0⟩ :=
  ⟨c7_coordinate_mapper.2.1 ⟨200, 100, []⟩ ⟨10, 20, 100, 50⟩
     (by norm_num) (by norm_num),
   c7_coordinate_mapper.2.2 ⟨10, 20, 100, 50⟩ 3 4⟩

/-! ### Claim C9 -/

/-- C9: when the clamped rendered image dimensions already equal the
Canvas Buffer's, `syncCanvasSize` changes nothing at all; the
content-clearing resize happens exactly when they differ. -/
theorem c9_sync_noop (s : AppState) (c : Canvas) (rect : Rect)
    (hc : s.canvas = some c) :
    (clampDim rect.width = c.width → clampDim rect.height = c.height →
      syncCanvasSize (some rect) s = s) ∧
    (clampDim rect.width ≠ c.width ∨ clampDim rect.height ≠ c.height →
      syncCanvasSize (some rect) s =
        { s with canvas := some ⟨clampDim rect.width, clampDim rect.height,
            blankPixels (clampDim rect.width) (clampDim rect.height)⟩ }) := by
  unfold syncCanvasSize
  rw [hc]
  constructor
  · intro hw hh
    dsimp only
    rw [if_neg]
    simp [hw, hh]
  · intro hdiff
    dsimp only
    rw [if_pos]
    · rfl
    · exact hdiff.imp Ne.symm Ne.symm

def cvC9 : Canvas := ⟨4, 4, List.replicate 16 7⟩

/-- A session whose 4×4 canvas holds non-blank content. -/
def exC9 : AppState :=
  ⟨some cvC9, true, false, none, [⟨4, 4, List.replicate 16 7⟩], [], true, false,
   "#2563eb", 3⟩

/-- C9, witnessed: a 4.0×4.0 rendered box leaves the 4×4 buffer (and its
content) untouched; a 9.0×3.0 box forces the clearing resize. -/
theorem c9_sync_noop_witness :
    syncCanvasSize (some ⟨0, 0, 4, 4⟩) exC9 = exC9 ∧
    syncCanvasSize (some ⟨0, 0, 9, 3⟩) exC9 =
      { exC9 with canvas := some ⟨clampDim 9, clampDim 3,
          blankPixels (clampDim 9) (clampDim 3)⟩ } :=
  ⟨(c9_sync_noop exC9 cvC9 ⟨0, 0, 4, 4⟩ rfl).1 (by decide) (by decide),
   (c9_sync_noop exC9 cvC9 ⟨0, 0, 9, 3⟩ rfl).2 (Or.inl (by decide))⟩

/-! ### Claim C10 -/

/-- The confidence computed by `analyzeImage`, as a projection. -/
theorem computeResult_confidence (predictions : Option (List Prediction)) :
    (computeResult predictions).confidence =
      max 0 (min 1 (((sortedPredictions (predictions.getD [])).head?.bind
        Prediction.probability).getD 0)) := rfl

/-- The head of the comparator-sorted prediction list is a member of the
input attaining the maximal `probability ?? 0` key. -/
theorem sortedPredictions_head_max (ps : List Prediction) (hps : ps ≠ []) :
    ∃ p, (sortedPredictions ps).head? = some p ∧ p ∈ ps ∧
      ∀ q ∈ ps, probKey q ≤ probKey p := by
  have htrans : ∀ a b c : Prediction, predLe a b = true → predLe b c = true →
      predLe a c = true := by
    intro a b c hab hbc
    simp only [predLe, decide_eq_true_eq] at *
    exact le_trans hbc hab
  have htotal : ∀ a b : Prediction, (predLe a b || predLe b a) = true := by
    intro a b
    simp only [predLe, Bool.or_eq_true, decide_eq_true_eq]
    exact le_total _ _
  have hsorted := List.sorted_mergeSort htrans htotal ps
  have hperm := List.mergeSort_perm ps predLe
  have hne : ps.mergeSort predLe ≠ [] := by
    intro h0
    exact hps (List.eq_nil_of_length_eq_zero (hperm.length_eq ▸ h0 ▸ rfl))
  obtain ⟨p, t, hl⟩ := List.exists_cons_of_ne_nil hne
  refine ⟨p, ?_, ?_, ?_⟩
  · unfold sortedPredictions
    rw [hl]
    rfl
  · rw [hl] at hperm
    exact hperm.mem_iff.mp (List.mem_cons_self p t)
  · intro q hq
    have hql : q ∈ ps.mergeSort predLe := hperm.mem_iff.mpr hq
    rw [hl] at hql hsorted
    rcases List.mem_cons.mp hql with rfl | hqt
    · exact le_refl _
    · have hle := (List.pairwise_cons.mp hsorted).1 q hqt
      simpa [predLe] using hle

unseal List.merge List.mergeSort in
/-- C10: an absent or empty prediction list maps to diagnosis Normal
with confidence 0 and `is_critical` false; `is_critical` is true exactly
when the diagnosis is Pneumonia; and for a non-empty list the confidence
is the top-probability entry's probability clamped to [0, 1]. -/
theorem c10_analysis_mapping :
    computeResult none = ⟨Diagnosis.Normal, 0, false⟩ ∧
    computeResult (some []) = ⟨Diagnosis.Normal, 0, false⟩ ∧
    (∀ x, (computeResult x).is_critical = true ↔
      (computeResult x).diagnosis = Diagnosis.Pneumonia) ∧
    (∀ ps : List Prediction, ps ≠ [] →
      ∃ p, p ∈ ps ∧
        (computeResult (some ps)).confidence =
          max 0 (min 1 (p.probability.getD 0)) ∧
        ∀ q ∈ ps, q.probability.getD 0 ≤ p.probability.getD 0) := by
  refine ⟨by decide, by decide, ?_, ?_⟩
  · intro x
    show decide ((computeResult x).diagnosis = Diagnosis.Pneumonia) = true ↔ _
    exact ⟨of_decide_eq_true, decide_eq_true⟩
  · intro ps hps
    obtain ⟨p, hhead, hmem, hmax⟩ := sortedPredictions_head_max ps hps
    refine ⟨p, hmem, ?_, fun q hq => hmax q hq⟩
    rw [computeResult_confidence]
    simp [hhead, probKey]

def psC10 : List Prediction :=
  [⟨some "Viral Pneumonia", some (9 / 10)⟩, ⟨some "Normal", some (1 / 10)⟩]

/-- C10, witnessed on a concrete two-entry prediction list. -/
theorem c10_analysis_mapping_witness :
    ∃ p, p ∈ psC10 ∧
      (computeResult (some psC10)).confidence =
        max 0 (min 1 (p.probability.getD 0)) ∧
      ∀ q ∈ psC10, q.probability.getD 0 ≤ p.probability.getD 0 :=
  c10_analysis_mapping.2.2.2 psC10 (by simp [psC10])

end Retina
